import Mathlib

/-!
# Verification of the ThingSet python codec

Shallow embedding of `src/thingset/__init__.py`: a codec for ThingSet
messages (one function byte followed by a CBOR-encoded map payload),
with forced float32 encoding of floating-point values and an optional
domain-name translation layer.

## Modelling conventions

* Byte strings are `List Nat`, every element below 256.
* Python floats (IEEE-754 binary64) are represented by their 64-bit
  pattern, a `Nat` below `2 ^ 64`.  The two zero patterns `+0.0` and
  `-0.0` are kept distinct, as the bit-level code does.
* Python `dict`s are association lists built with Python's insertion
  semantics (`pyDict`): inserting an existing key overwrites the value
  in place, a new key is appended.  Iteration order is insertion order.
* The external `cbor2` library is modelled on the subset of CBOR that
  the ThingSet payloads exercise: unsigned/negative integers, booleans,
  `null`, IEEE-754 half/single/double floats, definite-length arrays
  and definite-length maps whose elements are scalars.  Byte/text
  strings, tags, indefinite lengths and nested containers are outside
  the modelled subset (the decoder returns `none` for them, standing
  for the unmodelled cases, never for a different result).
* Python exceptions are values of `PyError`; a function that can raise
  returns `Except PyError α`.  Error message strings follow the source
  (apostrophes and the `<class ...>` rendering of type names are
  simplified to plain words, keeping the reported data).
-/

/-! ## Data model -/

/-- The `ThingsetFunction` enumeration from the source: the eight
one-byte protocol function codes. -/
inductive ThingsetFunction where
  | READ
  | WRITE
  | LIST
  | GET_DATA_OBJECT_NAME
  | PUBLICATION_REQUEST
  | AUTHENTICATION
  | PRELIMINARY
  | PUBLICATION_MESSAGE
  deriving DecidableEq, Repr

/-- The numeric value of each enumeration member (`READ = 0x01`, ...,
`PUBLICATION_MESSAGE = 0x1F`). -/
def ThingsetFunction.value : ThingsetFunction → Nat
  | .READ => 0x01
  | .WRITE => 0x02
  | .LIST => 0x03
  | .GET_DATA_OBJECT_NAME => 0x04
  | .PUBLICATION_REQUEST => 0x05
  | .AUTHENTICATION => 0x06
  | .PRELIMINARY => 0x07
  | .PUBLICATION_MESSAGE => 0x1F

/-- Iteration order of the Python `enum` (declaration order), used by
the classifier loop `for protocol_function in ThingsetFunction`. -/
def ThingsetFunction.all : List ThingsetFunction :=
  [.READ, .WRITE, .LIST, .GET_DATA_OBJECT_NAME, .PUBLICATION_REQUEST,
   .AUTHENTICATION, .PRELIMINARY, .PUBLICATION_MESSAGE]

/-- A Python scalar value as it occurs in ThingSet payloads: integers,
floats (by their binary64 bit pattern), booleans, strings and `None`. -/
inductive PyValue where
  | intV (n : Int)
  | floatV (bits : Nat)
  | boolV (b : Bool)
  | strV (s : String)
  | noneV
  deriving DecidableEq, Repr

/-- The result of `cbor2.loads` in the modelled subset: a scalar, a
list, or a dict with scalar keys and values. -/
inductive CborTop where
  | scalar (v : PyValue)
  | listT (items : List PyValue)
  | dictT (entries : List (PyValue × PyValue))
  deriving DecidableEq, Repr

/-- The Python exceptions the codec can raise.  `parsingError` is the
module's own `ParsingError`; `cborDecodeError` stands for any error of
the `cbor2` decoding layer; `overflowError` comes from `struct.pack`
(float too large for float32) or from `round`; `keyError` from a dict
lookup; `indexError` from indexing an empty byte string. -/
inductive PyError where
  | parsingError (msg : String)
  | cborDecodeError
  | overflowError (msg : String)
  | keyError (key : String)
  | indexError
  deriving DecidableEq, Repr

/-- `Message = NamedTuple(function, payload)`; the payload dict is an
association list of scalar keys to scalar values. -/
structure Message where
  function : ThingsetFunction
  payload : List (PyValue × PyValue)
  deriving DecidableEq, Repr

/-- `MessageWithDomain = NamedTuple(function, payload)` with string
(domain) keys. -/
structure MessageWithDomain where
  function : ThingsetFunction
  payload : List (String × PyValue)
  deriving DecidableEq, Repr

/-! ## Python dict model -/

/-- Insert `(k, v)` into a dict with Python semantics: overwrite the
value in place if `k` is present, append otherwise. -/
def dictInsert {α β : Type} [BEq α] (d : List (α × β)) (k : α) (v : β) :
    List (α × β) :=
  if (d.lookup k).isSome then
    d.map (fun p => if p.1 == k then (k, v) else p)
  else d ++ [(k, v)]

/-- Build a Python dict from a list of key/value pairs, in order. -/
def pyDict {α β : Type} [BEq α] (es : List (α × β)) : List (α × β) :=
  es.foldl (fun d p => dictInsert d p.1 p.2) []

/-! ## Bit-level IEEE-754 helpers

The Python code moves floats across widths with `struct.pack`
(`">Bf"`: binary64 value narrowed to binary32) and `cbor2` widens
binary16/binary32 data back to Python's binary64 floats.  These
conversions are modelled bit-exactly on `Nat`. -/

/-- Fueled floor-log2 (`natLog2 0 = 0`), kernel-reducible. -/
def natLog2Aux : Nat → Nat → Nat
  | 0, _ => 0
  | fuel + 1, n => if 2 ≤ n then natLog2Aux fuel (n / 2) + 1 else 0

/-- `natLog2 n` is the position of the most significant bit of `n`
(and `0` for `n = 0`). -/
def natLog2 (n : Nat) : Nat := natLog2Aux n n

/-- Shift `sig` right by `r` bits, rounding to nearest with ties to
even — the IEEE-754 default rounding applied to a trailing fragment. -/
def roundSigHalfEven (sig r : Nat) : Nat :=
  if r = 0 then sig
  else
    let hi := sig >>> r
    let low := sig &&& (2 ^ r - 1)
    let half := 2 ^ (r - 1)
    if low > half then hi + 1
    else if low < half then hi
    else if hi % 2 = 1 then hi + 1 else hi

/-- Round the dyadic value `sig * 2 ^ exp` (with sign bit `sgn`) to the
nearest IEEE-754 binary32, ties to even; `none` on overflow to
infinity, which is where `struct.pack` raises `OverflowError`. -/
def dyadicToF32bits (sgn sig : Nat) (exp : Int) : Option Nat :=
  if sig = 0 then some (sgn <<< 31)
  else
    let L : Nat := natLog2 sig
    let E : Int := exp + L
    let t : Int := max (E - 23) (-149)
    let q : Nat :=
      if t ≤ exp then sig <<< (exp - t).toNat
      else roundSigHalfEven sig (t - exp).toNat
    if q = 0 then some (sgn <<< 31)
    else
      let L2 : Nat := natLog2 q
      let E2 : Int := t + L2
      if E2 ≥ 128 then none
      else if E2 < -126 then some ((sgn <<< 31) ||| q)
      else some ((sgn <<< 31) ||| ((E2 + 127).toNat <<< 23) |||
        ((q - 2 ^ L2) <<< (23 - L2)))

/-- `struct.pack(">f", x)` on a binary64 bit pattern: narrow to
binary32 with round-to-nearest-even; `none` models the `OverflowError`
raised when a finite double is out of float32 range. -/
def narrow64to32 (b : Nat) : Option Nat :=
  let sgn := (b >>> 63) &&& 1
  let e := (b >>> 52) &&& 2047
  let m := b &&& (2 ^ 52 - 1)
  if e = 2047 then
    some ((sgn <<< 31) ||| (255 <<< 23) |||
      (if m = 0 then 0 else ((m >>> 29) ||| (1 <<< 22))))
  else if e = 0 then dyadicToF32bits sgn m (-1074)
  else dyadicToF32bits sgn (2 ^ 52 + m) ((e : Int) - 1075)

/-- Exact widening of a binary32 bit pattern to the binary64 pattern of
the same value (what Python's float construction from CBOR float32 data
performs). -/
def widen32to64 (b : Nat) : Nat :=
  let sgn := (b >>> 31) &&& 1
  let e := (b >>> 23) &&& 255
  let m := b &&& (2 ^ 23 - 1)
  if e = 255 then (sgn <<< 63) ||| (2047 <<< 52) ||| (m <<< 29)
  else if e = 0 then
    if m = 0 then sgn <<< 63
    else
      let L := natLog2 m
      (sgn <<< 63) ||| ((L + 874) <<< 52) ||| ((m - 2 ^ L) <<< (52 - L))
  else (sgn <<< 63) ||| ((e + 896) <<< 52) ||| (m <<< 29)

/-- Exact widening of a binary16 bit pattern to binary64 (CBOR float16
data decoded to a Python float). -/
def widen16to64 (b : Nat) : Nat :=
  let sgn := (b >>> 15) &&& 1
  let e := (b >>> 10) &&& 31
  let m := b &&& 1023
  if e = 31 then (sgn <<< 63) ||| (2047 <<< 52) ||| (m <<< 42)
  else if e = 0 then
    if m = 0 then sgn <<< 63
    else
      let L := natLog2 m
      (sgn <<< 63) ||| ((L + 999) <<< 52) ||| ((m - 2 ^ L) <<< (52 - L))
  else (sgn <<< 63) ||| ((e + 1008) <<< 52) ||| (m <<< 42)

/-- A binary64 pattern is exactly representable in binary32 when
narrowing succeeds, producing a well-formed 32-bit pattern, and
widening back reproduces the pattern. -/
def isF32Exact (b : Nat) : Bool :=
  match narrow64to32 b with
  | some b32 => decide (b32 < 2 ^ 32) && (widen32to64 b32 == b)
  | none => false

/-! ## Python `round(float, ndigits)`

CPython rounds a float to `n` decimal digits correctly: the exact
value of the double is rounded to a multiple of `10 ^ -n` with ties to
even, and the resulting decimal is converted to the nearest double
(again ties to even).  Both steps are modelled with exact integer
arithmetic. -/

/-- `2 ^ e ≤ n / d` for positive naturals `n`, `d` and an integer
exponent, by cross-multiplication. -/
def ratPow2Le (e : Int) (n d : Nat) : Bool :=
  if e ≥ 0 then d * 2 ^ e.toNat ≤ n else d ≤ n * 2 ^ (-e).toNat

/-- Floor of the base-2 logarithm of `n / d` (`n`, `d` positive). -/
def ratFloorLog2 (n d : Nat) : Int :=
  let e0 : Int := (natLog2 n : Int) - (natLog2 d : Int)
  if ratPow2Le (e0 + 1) n d then e0 + 1
  else if ratPow2Le e0 n d then e0
  else e0 - 1

/-- Round `num / d` to the nearest integer, ties to even (`d` > 0). -/
def ratRoundHalfEvenDiv (num d : Nat) : Nat :=
  let q := num / d
  let r := num % d
  if 2 * r > d then q + 1
  else if 2 * r < d then q
  else if q % 2 = 1 then q + 1 else q

/-- Bit pattern of the binary64 nearest to `±(n / d)` (`n`, `d`
positive, sign bit `sgn`), ties to even; `none` on overflow, where
CPython raises `OverflowError`. -/
def ratToF64bits (sgn n d : Nat) : Option Nat :=
  let E : Int := ratFloorLog2 n d
  let t : Int := max (E - 52) (-1074)
  let q : Nat :=
    if t ≤ 0 then ratRoundHalfEvenDiv (n <<< (-t).toNat) d
    else ratRoundHalfEvenDiv n (d <<< t.toNat)
  if q = 0 then some (sgn <<< 63)
  else
    let L2 : Nat := natLog2 q
    let E2 : Int := t + L2
    if E2 ≥ 1024 then none
    else if E2 < -1022 then some ((sgn <<< 63) ||| q)
    else some ((sgn <<< 63) ||| ((E2 + 1023).toNat <<< 52) |||
      ((q - 2 ^ L2) <<< (52 - L2)))

/-- Python `round(x, nd)` on a binary64 bit pattern: infinities and
NaNs are returned unchanged, zeros keep their sign, every other value
is rounded to `nd` decimal digits as described above.  `none` models
the (unreachable in practice) `OverflowError` of CPython's rounding. -/
def pyRound (bits nd : Nat) : Option Nat :=
  let sgn := (bits >>> 63) &&& 1
  let e := (bits >>> 52) &&& 2047
  let m := bits &&& (2 ^ 52 - 1)
  if e = 2047 then some bits
  else if e = 0 ∧ m = 0 then some bits
  else
    let sig := if e = 0 then m else 2 ^ 52 + m
    let ex : Int := if e = 0 then -1074 else (e : Int) - 1075
    let D := 10 ^ nd
    let N : Nat :=
      if 0 ≤ ex then (sig * D) <<< ex.toNat
      else roundSigHalfEven (sig * D) (-ex).toNat
    if N = 0 then some (sgn <<< 63)
    else ratToF64bits sgn N D

/-! ## CBOR encoding (model of the `cbor2` encoder subset)

`encode_thingset_message` uses `cbor2.encoder.encode_length` for the
map header and `cbor2.encoder.CBOREncoder.encode` for keys and
non-float values; floats are forced to float32 by
`_encode_float_using_float32` (`struct.pack(">Bf", 0xFA, value)`). -/

/-- Big-endian bytes of `n` on `k` bytes (the `struct.pack` fixed-width
formats `>B`, `>H`, `>L`, `>Q`). -/
def beBytes : Nat → Nat → List Nat
  | 0, _ => []
  | k + 1, n => n / 2 ^ (8 * k) :: beBytes k (n % 2 ^ (8 * k))

/-- `cbor2.encoder.encode_length(major_tag, length)`: the definite
CBOR length encoding — values 0–23 inline in the tag byte, then 1-, 2-,
4- or 8-byte big-endian length fields with additional information
24–27. -/
def encode_length (major n : Nat) : List Nat :=
  if n < 24 then [major ||| n]
  else if n < 2 ^ 8 then [major ||| 24, n]
  else if n < 2 ^ 16 then (major ||| 25) :: beBytes 2 n
  else if n < 2 ^ 32 then (major ||| 26) :: beBytes 4 n
  else (major ||| 27) :: beBytes 8 n

/-- Minimal big-endian byte string of a nonnegative integer
(`int.to_bytes((bit_length + 7) // 8)`), used for CBOR bignums. -/
def natBeBytesMin (n : Nat) : List Nat :=
  if n = 0 then [] else beBytes (natLog2 n / 8 + 1) n

/-- `cbor2` encoding of one Python scalar with the encoder's default
settings: integers in minimal width (bignum tags 2/3 beyond 64 bits),
floats as binary64 (`0xFB`), booleans, `None`, and UTF-8 text
strings. -/
def cborEncodeScalar : PyValue → List Nat
  | .intV n =>
      if 0 ≤ n then
        if n < 2 ^ 64 then encode_length 0x00 n.toNat
        else
          let payload := natBeBytesMin n.toNat
          0xC2 :: encode_length 0x40 payload.length ++ payload
      else
        let nn := (-n - 1).toNat
        if n ≥ -(2 ^ 64 : Int) then encode_length 0x20 nn
        else
          let payload := natBeBytesMin nn
          0xC3 :: encode_length 0x40 payload.length ++ payload
  | .floatV b => 0xFB :: beBytes 8 b
  | .boolV b => [if b then 0xF5 else 0xF4]
  | .strV s =>
      let bs := s.toUTF8.toList.map UInt8.toNat
      encode_length 0x60 bs.length ++ bs
  | .noneV => [0xF6]

/-- `_encode_float_using_float32`: `struct.pack(">Bf", 0xFA, value)` —
the float32 tag byte followed by the 4-byte big-endian narrowed value;
raises `OverflowError` when the double is out of float32 range. -/
def _encode_float_using_float32 (bits : Nat) : Except PyError (List Nat) :=
  match narrow64to32 bits with
  | some b32 => .ok (0xFA :: beBytes 4 b32)
  | none => .error (.overflowError "float too large to pack with f format")

/-- Value encoding inside the encoder loop: forced float32 when the
value is a float (`isinstance(value, float)`), generic `cbor2`
encoding otherwise. -/
def encodeValueBytes : PyValue → Except PyError (List Nat)
  | .floatV b => _encode_float_using_float32 b
  | v => .ok (cborEncodeScalar v)

/-- One iteration of the encoder loop: encode the key with the generic
encoder, then the value. -/
def encodeEntry (kv : PyValue × PyValue) : Except PyError (List Nat) :=
  (encodeValueBytes kv.2).map (fun vb => cborEncodeScalar kv.1 ++ vb)

/-- The whole encoder loop over the payload items, in insertion
order. -/
def encodeEntries : List (PyValue × PyValue) → Except PyError (List Nat)
  | [] => .ok []
  | e :: rest => do
      let x ← encodeEntry e
      let y ← encodeEntries rest
      .ok (x ++ y)

/-- `encode_thingset_message`: the function byte, then the CBOR map
header `encode_length(0xA0, len(payload))`, then the encoded items. -/
def encode_thingset_message (msg : Message) : Except PyError (List Nat) :=
  (encodeEntries msg.payload).map
    (fun body =>
      msg.function.value :: encode_length 0xA0 msg.payload.length ++ body)

/-- `encode_thingset_message_with_domain`: invert the domain mapping
(`{value: key ...}`, a Python dict, so later pairs win on duplicate
strings), translate every payload key through it — a missing key
raises `KeyError` — and delegate to `encode_thingset_message`. -/
def encode_thingset_message_with_domain (msg : MessageWithDomain)
    (payload_key_mapping : List (Int × String)) : Except PyError (List Nat) :=
  (msg.payload.mapM
    (fun (kv : String × PyValue) =>
      (match (pyDict (payload_key_mapping.map
          (fun (p : Int × String) => (p.2, p.1)))).lookup kv.1 with
      | some rawKey => Except.ok (PyValue.intV rawKey, kv.2)
      | none => Except.error (PyError.keyError kv.1) :
        Except PyError (PyValue × PyValue)))).bind
    (fun translated => encode_thingset_message ⟨msg.function, pyDict translated⟩)

/-! ## CBOR decoding (model of `cbor2.loads` on the modelled subset) -/

/-- Read a `k`-byte big-endian unsigned integer off the front of the
stream; `none` when the stream is too short (`cbor2` raises
`CBORDecodeError` on premature end of stream). -/
def takeBe : Nat → List Nat → Option (Nat × List Nat)
  | 0, bs => some (0, bs)
  | _ + 1, [] => none
  | k + 1, b :: bs => (takeBe k bs).map (fun p => (b * 2 ^ (8 * k) + p.1, p.2))

/-- Decode the length/value argument of a CBOR initial byte from its
additional information `ai` (0–23 inline, 24–27 big-endian extension
bytes; 28–31 are invalid or indefinite, outside the modelled subset). -/
def decodeUintArg (ai : Nat) (bs : List Nat) : Option (Nat × List Nat) :=
  if ai < 24 then some (ai, bs)
  else if ai = 24 then takeBe 1 bs
  else if ai = 25 then takeBe 2 bs
  else if ai = 26 then takeBe 4 bs
  else if ai = 27 then takeBe 8 bs
  else none

/-- Decode one scalar CBOR item into a Python value: unsigned and
negative integers, `false`/`true`/`null`, and half/single/double
floats (all widened to Python binary64 floats). -/
def decodeScalar : List Nat → Option (PyValue × List Nat)
  | [] => none
  | b :: bs =>
    if b >>> 5 = 0 then
      (decodeUintArg (b &&& 31) bs).map (fun p => (.intV p.1, p.2))
    else if b >>> 5 = 1 then
      (decodeUintArg (b &&& 31) bs).map (fun p => (.intV (-1 - (p.1 : Int)), p.2))
    else if b = 0xF4 then some (.boolV false, bs)
    else if b = 0xF5 then some (.boolV true, bs)
    else if b = 0xF6 then some (.noneV, bs)
    else if b = 0xF9 then
      (takeBe 2 bs).map (fun p => (.floatV (widen16to64 p.1), p.2))
    else if b = 0xFA then
      (takeBe 4 bs).map (fun p => (.floatV (widen32to64 p.1), p.2))
    else if b = 0xFB then
      (takeBe 8 bs).map (fun p => (.floatV p.1, p.2))
    else none

/-- Decode `n` consecutive key/value pairs of scalars (the body of a
definite-length map). -/
def decodePairs : Nat → List Nat → Option (List (PyValue × PyValue) × List Nat)
  | 0, bs => some ([], bs)
  | n + 1, bs => do
      let (k, bs1) ← decodeScalar bs
      let (v, bs2) ← decodeScalar bs1
      let (rest, bs3) ← decodePairs n bs2
      some ((k, v) :: rest, bs3)

/-- Decode `n` consecutive scalar items (the body of a definite-length
array). -/
def decodeItems : Nat → List Nat → Option (List PyValue × List Nat)
  | 0, bs => some ([], bs)
  | n + 1, bs => do
      let (v, bs1) ← decodeScalar bs
      let (rest, bs2) ← decodeItems n bs1
      some (v :: rest, bs2)

/-- Decode one top-level CBOR item: a definite-length map (built into a
Python dict, later duplicates overwriting earlier ones), a
definite-length array, or a scalar. -/
def decodeTop (bs : List Nat) : Option (CborTop × List Nat) :=
  match bs with
  | [] => none
  | b :: rest =>
    if b >>> 5 = 5 then do
      let (n, r1) ← decodeUintArg (b &&& 31) rest
      let (pairs, r2) ← decodePairs n r1
      some (.dictT (pyDict pairs), r2)
    else if b >>> 5 = 4 then do
      let (n, r1) ← decodeUintArg (b &&& 31) rest
      let (items, r2) ← decodeItems n r1
      some (.listT items, r2)
    else (decodeScalar bs).map (fun p => (.scalar p.1, p.2))

/-- `cbor2.loads`: decode the first CBOR object of the byte string
(trailing bytes are ignored); `none` models `CBORDecodeError` and the
unmodelled subset. -/
def cborLoads (bs : List Nat) : Option CborTop :=
  (decodeTop bs).map Prod.fst

/-- The Python type name reported by the non-dict `ParsingError`
message (the source formats `type(raw_payload)`). -/
def pyTypeName : CborTop → String
  | .scalar (.intV _) => "int"
  | .scalar (.floatV _) => "float"
  | .scalar (.boolV _) => "bool"
  | .scalar (.strV _) => "str"
  | .scalar .noneV => "NoneType"
  | .listT _ => "list"
  | .dictT _ => "dict"

/-- One iteration of the payload loop: round a float value when a
precision is supplied, pass everything else through unchanged. -/
def roundEntry (prec : Option Nat) (kv : PyValue × PyValue) :
    Except PyError (PyValue × PyValue) :=
  match prec, kv.2 with
  | some p, .floatV b =>
      match pyRound b p with
      | some r => .ok (kv.1, .floatV r)
      | none => .error (.overflowError "rounded value too large to represent")
  | _, _ => .ok kv

/-- `_parse_thingset_msg_payload`: drop the function byte, decode the
remainder with `cbor2.loads`, require a dict, then rebuild the payload
dict rounding float values when `floats_precision` is given. -/
def _parse_thingset_msg_payload (msg : List Nat) (floats_precision : Option Nat) :
    Except PyError (List (PyValue × PyValue)) :=
  match cborLoads (msg.drop 1) with
  | none => .error .cborDecodeError
  | some (.dictT es) =>
      (es.mapM (roundEntry floats_precision)).map pyDict
  | some v => .error (.parsingError
      ("ThingSet payload should be a dict, got " ++ pyTypeName v ++ " instead"))

/-- `_parse_thingset_msg_function`: read `msg[0]` (raising `IndexError`
on an empty byte string), scan the enumeration in declaration order,
and raise `ParsingError` naming the byte when no member matches. -/
def _parse_thingset_msg_function (msg : List Nat) : Except PyError ThingsetFunction :=
  match msg with
  | [] => .error .indexError
  | function_byte :: _ =>
    match ThingsetFunction.all.find? (fun f => f.value == function_byte) with
    | some f => .ok f
    | none => .error (.parsingError
        ("Thingset function " ++ toString function_byte ++ " is not implemented"))

/-- `decode_thingset_message`: classify the function byte, parse the
payload, combine. -/
def decode_thingset_message (msg : List Nat) (floats_precision : Option Nat) :
    Except PyError Message := do
  let function ← _parse_thingset_msg_function msg
  let payload ← _parse_thingset_msg_payload msg floats_precision
  .ok ⟨function, payload⟩

/-- The domain-translation dict comprehension of
`decode_thingset_message_with_domain`: for each mapping pair whose raw
key occurs in the raw payload, bind the domain key to the payload
value. -/
def translateToDomain (raw_payload : List (PyValue × PyValue))
    (payload_key_mapping : List (Int × String)) : List (String × PyValue) :=
  pyDict (payload_key_mapping.filterMap
    (fun p => (raw_payload.lookup (PyValue.intV p.1)).map (fun v => (p.2, v))))

/-- `decode_thingset_message_with_domain`: classify, parse, then
translate the raw payload keys to domain strings. -/
def decode_thingset_message_with_domain (msg : List Nat)
    (payload_key_mapping : List (Int × String)) (floats_precision : Option Nat) :
    Except PyError MessageWithDomain := do
  let function ← _parse_thingset_msg_function msg
  let raw_payload ← _parse_thingset_msg_payload msg floats_precision
  .ok ⟨function, translateToDomain raw_payload payload_key_mapping⟩

/-! ## The faithfully-roundtripping model domain

The generic `cbor2` codec roundtrips every Python scalar; the model
covers integers within the 64-bit CBOR widths (beyond which `cbor2`
switches to bignum tags, outside the modelled decoder subset), floats,
booleans and `None`. -/

/-- Scalars whose generic `cbor2` encoding the modelled decoder reads
back: integers within the native CBOR integer range, any finite-width
float pattern, booleans and `None`. -/
def ModelScalar : PyValue → Bool
  | .intV n => decide (-(2 ^ 64 : Int) ≤ n) && decide (n < 2 ^ 64)
  | .floatV b => decide (b < 2 ^ 64)
  | .boolV _ => true
  | .strV _ => false
  | .noneV => true

/-- Payload values on the forced-float32 encode path: floats must be
exactly representable in binary32 for the roundtrip, everything else
as in `ModelScalar`. -/
def ModelRTValue : PyValue → Bool
  | .floatV b => isF32Exact b
  | v => ModelScalar v

deriving instance DecidableEq for Except

/-! ## Concrete data: the reference test vector -/

/-- The end-to-end test byte sequence
`1F A5 01 1A5BC063D8 07 FA42F60000 08 FA41733333 09 1852 184E 190356`. -/
def testVector : List Nat :=
  [0x1F, 0xA5, 0x01, 0x1A, 0x5B, 0xC0, 0x63, 0xD8,
   0x07, 0xFA, 0x42, 0xF6, 0x00, 0x00,
   0x08, 0xFA, 0x41, 0x73, 0x33, 0x33,
   0x09, 0x18, 0x52, 0x18, 0x4E, 0x19, 0x03, 0x56]

/-- The payload of the test vector as Python builds it under
`floats_precision=3`: `123.0` is `0x405EC00000000000` and `15.2` is
`0x402E666666666666` (the binary64 nearest to the decimal 15.2). -/
def testPayloadRounded : List (PyValue × PyValue) :=
  [(.intV 1, .intV 1539335128),
   (.intV 7, .floatV 0x405EC00000000000),
   (.intV 8, .floatV 0x402E666666666666),
   (.intV 9, .intV 82),
   (.intV 0x4E, .intV 854)]

/-- The payload of the test vector as decoded with no precision: key 8
carries the widening of the float32 pattern `0x41733333`, the binary64
`0x402E666660000000` (15.199999809265137). -/
def testPayloadRaw : List (PyValue × PyValue) :=
  [(.intV 1, .intV 1539335128),
   (.intV 7, .floatV 0x405EC00000000000),
   (.intV 8, .floatV 0x402E666660000000),
   (.intV 9, .intV 82),
   (.intV 0x4E, .intV 854)]

/-- A 24-entry payload (keys 0–23, all values 0), crossing the first
CBOR length-width boundary. -/
def payload24 : List (PyValue × PyValue) :=
  (List.range 24).map (fun i => (.intV (i : Int), .intV 0))

/-- Whether a decoded CBOR top-level value is a Python dict. -/
def CborTop.isDict : CborTop → Bool
  | .dictT _ => true
  | _ => false

/-! ## Lemmas: byte-string primitives -/

theorem beBytes_length (k n : Nat) : (beBytes k n).length = k := by
  induction k generalizing n with
  | zero => rfl
  | succ k ih => simp [beBytes, ih]

theorem takeBe_beBytes (k : Nat) (n : Nat) (r : List Nat) (h : n < 2 ^ (8 * k)) :
    takeBe k (beBytes k n ++ r) = some (n, r) := by
  induction k generalizing n with
  | zero =>
    interval_cases n
    rfl
  | succ k ih =>
    have hlt : n % 2 ^ (8 * k) < 2 ^ (8 * k) :=
      Nat.mod_lt _ (Nat.pos_pow_of_pos _ (by norm_num))
    have hstep : takeBe (k + 1) ((n / 2 ^ (8 * k) :: beBytes k (n % 2 ^ (8 * k))) ++ r) =
        (takeBe k (beBytes k (n % 2 ^ (8 * k)) ++ r)).map
          (fun p => (n / 2 ^ (8 * k) * 2 ^ (8 * k) + p.1, p.2)) := rfl
    show takeBe (k + 1) ((n / 2 ^ (8 * k) :: beBytes k (n % 2 ^ (8 * k))) ++ r) = some (n, r)
    rw [hstep, ih _ hlt]
    simp [Nat.div_add_mod']

/-! ## Lemmas: Python dict building -/

theorem dictInsert_notMem {α β : Type} [BEq α] (d : List (α × β)) (k : α) (v : β)
    (h : d.lookup k = none) : dictInsert d k v = d ++ [(k, v)] := by
  simp [dictInsert, h]

theorem lookup_append_right {α β : Type} [BEq α] (l1 l2 : List (α × β)) (k : α)
    (h : l1.lookup k = none) : (l1 ++ l2).lookup k = l2.lookup k := by
  induction l1 with
  | nil => rfl
  | cons p l ih =>
    obtain ⟨a, b⟩ := p
    simp only [List.cons_append, List.lookup_cons] at h ⊢
    cases hk : k == a with
    | true => simp [hk] at h
    | false =>
      simp only [hk] at h ⊢
      exact ih h

theorem lookup_eq_none_of_not_mem {α β : Type} [BEq α] [LawfulBEq α]
    (l : List (α × β)) (k : α) (h : k ∉ l.map Prod.fst) : l.lookup k = none := by
  induction l with
  | nil => rfl
  | cons p l ih =>
    obtain ⟨a, b⟩ := p
    simp only [List.map_cons, List.mem_cons, not_or] at h
    have hk : (k == a) = false := beq_false_of_ne h.1
    simp only [List.lookup_cons, hk]
    exact ih h.2

theorem pyDict_go_eq {α β : Type} [BEq α] [LawfulBEq α]
    (es : List (α × β)) (d : List (α × β))
    (hnd : (es.map Prod.fst).Nodup)
    (hdisj : ∀ k ∈ es.map Prod.fst, d.lookup k = none) :
    es.foldl (fun acc p => dictInsert acc p.1 p.2) d = d ++ es := by
  induction es generalizing d with
  | nil => simp
  | cons p es ih =>
    simp only [List.map_cons, List.nodup_cons] at hnd
    have hd0 : d.lookup p.1 = none := hdisj p.1 (by simp)
    simp only [List.foldl_cons, dictInsert_notMem d p.1 p.2 hd0]
    rw [ih _ hnd.2]
    · simp
    · intro k hk
      have hk1 : k ≠ p.1 := by
        intro hcon
        exact hnd.1 (hcon ▸ hk)
      rw [lookup_append_right _ _ _ (hdisj k (by simp [hk]))]
      simp only [List.lookup_cons, beq_false_of_ne hk1, List.lookup_nil]

theorem pyDict_eq_self {α β : Type} [BEq α] [LawfulBEq α]
    (es : List (α × β)) (hnd : (es.map Prod.fst).Nodup) : pyDict es = es := by
  unfold pyDict
  rw [pyDict_go_eq es [] hnd (fun k _ => rfl)]
  simp

/-! ## Lemmas: scalar CBOR roundtrip -/

theorem shr5_of_lt32 (m : Nat) (h : m < 32) : m >>> 5 = 0 := by
  rw [Nat.shiftRight_eq_div_pow]
  exact Nat.div_eq_of_lt (by norm_num at h ⊢; omega)

theorem and31_of_lt32 (m : Nat) (h : m < 32) : m &&& 31 = m := by
  have h5 : m &&& (2 ^ 5 - 1) = m % 2 ^ 5 := Nat.and_pow_two_sub_one_eq_mod m 5
  norm_num at h5
  rw [h5]
  exact Nat.mod_eq_of_lt h

theorem or32_facts : ∀ x, x < 24 → (32 ||| x) >>> 5 = 1 ∧ (32 ||| x) &&& 31 = x := by
  decide

theorem or160_facts : ∀ x, x < 24 → (160 ||| x) >>> 5 = 5 ∧ (160 ||| x) &&& 31 = x := by
  decide

theorem beBytes_one (m : Nat) : beBytes 1 m = [m] := by
  simp [beBytes]

theorem decodeUintArg_inline (x : Nat) (hx : x < 24) (r : List Nat) :
    decodeUintArg x r = some (x, r) := by
  simp [decodeUintArg, hx]

theorem takeBe_one (b : Nat) (r : List Nat) : takeBe 1 (b :: r) = some (b, r) := by
  simp [takeBe]

theorem decodeUintArg_24 (m : Nat) (r : List Nat) :
    decodeUintArg 24 (m :: r) = some (m, r) := by
  simp [decodeUintArg, takeBe_one]

theorem decodeUintArg_25 (m : Nat) (hm : m < 2 ^ 16) (r : List Nat) :
    decodeUintArg 25 (beBytes 2 m ++ r) = some (m, r) := by
  simpa [decodeUintArg] using takeBe_beBytes 2 m r (by norm_num at hm ⊢; omega)

theorem decodeUintArg_26 (m : Nat) (hm : m < 2 ^ 32) (r : List Nat) :
    decodeUintArg 26 (beBytes 4 m ++ r) = some (m, r) := by
  simpa [decodeUintArg] using takeBe_beBytes 4 m r (by norm_num at hm ⊢; omega)

theorem decodeUintArg_27 (m : Nat) (hm : m < 2 ^ 64) (r : List Nat) :
    decodeUintArg 27 (beBytes 8 m ++ r) = some (m, r) := by
  simpa [decodeUintArg] using takeBe_beBytes 8 m r (by norm_num at hm ⊢; omega)

theorem decodeScalar_encode_uint (m : Nat) (h : m < 2 ^ 64) (r : List Nat) :
    decodeScalar (encode_length 0x00 m ++ r) = some (.intV (m : Int), r) := by
  by_cases h24 : m < 24
  · have hb : encode_length 0x00 m = [m] := by
      unfold encode_length
      rw [if_pos h24, Nat.zero_or]
    rw [hb]
    simp only [List.cons_append, List.nil_append, decodeScalar,
      shr5_of_lt32 m (by omega), and31_of_lt32 m (by omega), if_pos rfl]
    rw [decodeUintArg_inline m h24 r]
    rfl
  · by_cases h256 : m < 2 ^ 8
    · have hb : encode_length 0x00 m = [24, m] := by
        unfold encode_length
        rw [if_neg h24, if_pos h256, Nat.zero_or]
      rw [hb]
      show decodeScalar (24 :: m :: r) = some (.intV (m : Int), r)
      simp only [decodeScalar]
      norm_num
      rw [show ((24 : Nat) &&& 31) = 24 from rfl, decodeUintArg_24 m r]
      rfl
    · by_cases h16 : m < 2 ^ 16
      · have hb : encode_length 0x00 m = 25 :: beBytes 2 m := by
          unfold encode_length
          rw [if_neg h24, if_neg h256, if_pos h16, Nat.zero_or]
        rw [hb]
        simp only [List.cons_append, decodeScalar]
        norm_num
        rw [show ((25 : Nat) &&& 31) = 25 from rfl, decodeUintArg_25 m h16 r]
        rfl
      · by_cases h32 : m < 2 ^ 32
        · have hb : encode_length 0x00 m = 26 :: beBytes 4 m := by
            unfold encode_length
            rw [if_neg h24, if_neg h256, if_neg h16, if_pos h32, Nat.zero_or]
          rw [hb]
          simp only [List.cons_append, decodeScalar]
          norm_num
          rw [show ((26 : Nat) &&& 31) = 26 from rfl, decodeUintArg_26 m h32 r]
          rfl
        · have hb : encode_length 0x00 m = 27 :: beBytes 8 m := by
            unfold encode_length
            rw [if_neg h24, if_neg h256, if_neg h16, if_neg h32, Nat.zero_or]
          rw [hb]
          simp only [List.cons_append, decodeScalar]
          norm_num
          rw [show ((27 : Nat) &&& 31) = 27 from rfl, decodeUintArg_27 m h r]
          rfl

theorem decodeScalar_encode_neg (m : Nat) (h : m < 2 ^ 64) (r : List Nat) :
    decodeScalar (encode_length 0x20 m ++ r) = some (.intV (-1 - (m : Int)), r) := by
  by_cases h24 : m < 24
  · have hb : encode_length 0x20 m = [32 ||| m] := by
      unfold encode_length
      rw [if_pos h24]
    rw [hb]
    simp only [List.cons_append, List.nil_append, decodeScalar,
      (or32_facts m h24).1, (or32_facts m h24).2]
    norm_num [decodeUintArg_inline m h24]
  · by_cases h256 : m < 2 ^ 8
    · have hb : encode_length 0x20 m = [56, m] := by
        unfold encode_length
        rw [if_neg h24, if_pos h256,
          show (32 ||| 24 : Nat) = 56 from by decide]
      rw [hb]
      show decodeScalar (56 :: m :: r) = some (.intV (-1 - (m : Int)), r)
      simp only [decodeScalar]
      norm_num
      rw [show ((56 : Nat) &&& 31) = 24 from by decide, decodeUintArg_24 m r]
      rfl
    · by_cases h16 : m < 2 ^ 16
      · have hb : encode_length 0x20 m = 57 :: beBytes 2 m := by
          unfold encode_length
          rw [if_neg h24, if_neg h256, if_pos h16]
          rw [show (32 ||| 25 : Nat) = 57 from by decide]
        rw [hb]
        simp only [List.cons_append, decodeScalar]
        norm_num
        rw [show ((57 : Nat) &&& 31) = 25 from by decide, decodeUintArg_25 m h16 r]
        rfl
      · by_cases h32 : m < 2 ^ 32
        · have hb : encode_length 0x20 m = 58 :: beBytes 4 m := by
            unfold encode_length
            rw [if_neg h24, if_neg h256, if_neg h16, if_pos h32]
            rw [show (32 ||| 26 : Nat) = 58 from by decide]
          rw [hb]
          simp only [List.cons_append, decodeScalar]
          norm_num
          rw [show ((58 : Nat) &&& 31) = 26 from by decide, decodeUintArg_26 m h32 r]
          rfl
        · have hb : encode_length 0x20 m = 59 :: beBytes 8 m := by
            unfold encode_length
            rw [if_neg h24, if_neg h256, if_neg h16, if_neg h32]
            rw [show (32 ||| 27 : Nat) = 59 from by decide]
          rw [hb]
          simp only [List.cons_append, decodeScalar]
          norm_num
          rw [show ((59 : Nat) &&& 31) = 27 from by decide, decodeUintArg_27 m h r]
          rfl

theorem decodeScalar_cborEncode (v : PyValue) (hv : ModelScalar v = true) (r : List Nat) :
    decodeScalar (cborEncodeScalar v ++ r) = some (v, r) := by
  cases v with
  | intV n =>
    simp only [ModelScalar, Bool.and_eq_true, decide_eq_true_eq] at hv
    obtain ⟨hv1, hv2⟩ := hv
    by_cases hn : 0 ≤ n
    · have hb : cborEncodeScalar (.intV n) = encode_length 0x00 n.toNat := by
        simp only [cborEncodeScalar]
        rw [if_pos hn, if_pos hv2]
      have hlt : n.toNat < 2 ^ 64 := by omega
      rw [hb, decodeScalar_encode_uint n.toNat hlt r, Int.toNat_of_nonneg hn]
    · have hge : n ≥ -(2 ^ 64 : Int) := hv1
      have hb : cborEncodeScalar (.intV n) = encode_length 0x20 (-n - 1).toNat := by
        simp only [cborEncodeScalar]
        rw [if_neg hn, if_pos hge]
      have hlt : (-n - 1).toNat < 2 ^ 64 := by omega
      have hnn : ((-n - 1).toNat : Int) = -n - 1 := Int.toNat_of_nonneg (by omega)
      have hval : (-1 : Int) - ((-n - 1).toNat : Int) = n := by
        rw [hnn]; ring
      rw [hb, decodeScalar_encode_neg (-n - 1).toNat hlt r, hval]
  | floatV b =>
    simp only [ModelScalar, decide_eq_true_eq] at hv
    show decodeScalar (0xFB :: beBytes 8 b ++ r) = some (.floatV b, r)
    simp only [List.cons_append, decodeScalar]
    norm_num
    rw [takeBe_beBytes 8 b r hv]
    rfl
  | boolV b =>
    cases b <;> rfl
  | strV s =>
    simp [ModelScalar] at hv
  | noneV => rfl

/-! ## Lemmas: entry and map roundtrip -/

theorem modelRTValue_float (b : Nat) : ModelRTValue (.floatV b) = isF32Exact b := rfl

theorem modelRTValue_int (n : Int) :
    ModelRTValue (.intV n) = ModelScalar (.intV n) := rfl

theorem modelRTValue_bool (b : Bool) :
    ModelRTValue (.boolV b) = ModelScalar (.boolV b) := rfl

theorem modelRTValue_none : ModelRTValue .noneV = ModelScalar .noneV := rfl

theorem modelRTValue_str (s : String) : ModelRTValue (.strV s) = false := rfl

theorem isF32Exact_spec (b : Nat) (h : isF32Exact b = true) :
    ∃ b32, narrow64to32 b = some b32 ∧ b32 < 2 ^ 32 ∧ widen32to64 b32 = b := by
  unfold isF32Exact at h
  cases hn : narrow64to32 b with
  | none => rw [hn] at h; cases h
  | some b32 =>
    rw [hn] at h
    simp only [Bool.and_eq_true, decide_eq_true_eq, beq_iff_eq] at h
    exact ⟨b32, rfl, h.1, h.2⟩

theorem decodeScalar_encodeValue (v : PyValue) (hv : ModelRTValue v = true)
    (vb : List Nat) (hok : encodeValueBytes v = .ok vb) (r : List Nat) :
    decodeScalar (vb ++ r) = some (v, r) := by
  cases v with
  | floatV b =>
    rw [modelRTValue_float] at hv
    obtain ⟨b32, hn, hlt, hw⟩ := isF32Exact_spec b hv
    have he : encodeValueBytes (.floatV b) = .ok (0xFA :: beBytes 4 b32) := by
      show _encode_float_using_float32 b = _
      unfold _encode_float_using_float32
      rw [hn]
    rw [he] at hok
    cases hok
    show decodeScalar (0xFA :: beBytes 4 b32 ++ r) = some (.floatV b, r)
    simp only [List.cons_append, decodeScalar]
    norm_num
    rw [takeBe_beBytes 4 b32 r hlt]
    simp [hw]
  | intV n =>
    cases hok
    exact decodeScalar_cborEncode _ (modelRTValue_int n ▸ hv) r
  | boolV b =>
    cases hok
    exact decodeScalar_cborEncode _ (modelRTValue_bool b ▸ hv) r
  | strV s =>
    rw [modelRTValue_str] at hv
    cases hv
  | noneV =>
    cases hok
    exact decodeScalar_cborEncode _ (modelRTValue_none ▸ hv) r

theorem encodeValueBytes_ok (v : PyValue) (hv : ModelRTValue v = true) :
    ∃ vb, encodeValueBytes v = .ok vb := by
  cases v with
  | floatV b =>
    rw [modelRTValue_float] at hv
    obtain ⟨b32, hn, _, _⟩ := isF32Exact_spec b hv
    refine ⟨0xFA :: beBytes 4 b32, ?_⟩
    show _encode_float_using_float32 b = _
    unfold _encode_float_using_float32
    rw [hn]
  | intV n => exact ⟨_, rfl⟩
  | boolV b => exact ⟨_, rfl⟩
  | strV s => exact ⟨_, rfl⟩
  | noneV => exact ⟨_, rfl⟩

theorem encodeEntry_eq (e : PyValue × PyValue) (vb : List Nat)
    (h : encodeValueBytes e.2 = .ok vb) :
    encodeEntry e = .ok (cborEncodeScalar e.1 ++ vb) := by
  unfold encodeEntry
  rw [h]
  rfl

theorem encodeEntries_cons (e : PyValue × PyValue) (es : List (PyValue × PyValue)) :
    encodeEntries (e :: es) =
      (encodeEntry e).bind (fun x => (encodeEntries es).map (fun y => x ++ y)) := by
  show (do
    let x ← encodeEntry e
    let y ← encodeEntries es
    Except.ok (x ++ y)) = _
  cases encodeEntry e with
  | error err => rfl
  | ok x =>
    cases encodeEntries es with
    | error err => rfl
    | ok y => rfl

theorem encodeEntries_ok (es : List (PyValue × PyValue))
    (hm : ∀ p ∈ es, ModelScalar p.1 = true ∧ ModelRTValue p.2 = true) :
    ∃ body, encodeEntries es = .ok body := by
  induction es with
  | nil => exact ⟨[], rfl⟩
  | cons e es ih =>
    obtain ⟨vb, hvb⟩ := encodeValueBytes_ok e.2 (hm e (by simp)).2
    obtain ⟨body, hbody⟩ := ih (fun p hp => hm p (by simp [hp]))
    refine ⟨cborEncodeScalar e.1 ++ vb ++ body, ?_⟩
    rw [encodeEntries_cons, encodeEntry_eq e vb hvb, hbody]
    rfl

theorem decodePairs_encodeEntries (es : List (PyValue × PyValue))
    (hm : ∀ p ∈ es, ModelScalar p.1 = true ∧ ModelRTValue p.2 = true)
    (body : List Nat) (hok : encodeEntries es = .ok body) (r : List Nat) :
    decodePairs es.length (body ++ r) = some (es, r) := by
  induction es generalizing body with
  | nil =>
    cases hok
    rfl
  | cons e es ih =>
    obtain ⟨vb, hvb⟩ := encodeValueBytes_ok e.2 (hm e (by simp)).2
    obtain ⟨tailb, htailb⟩ := encodeEntries_ok es (fun p hp => hm p (by simp [hp]))
    rw [encodeEntries_cons, encodeEntry_eq e vb hvb, htailb] at hok
    cases hok
    show decodePairs (es.length + 1)
      ((cborEncodeScalar e.1 ++ vb ++ tailb) ++ r) = some (e :: es, r)
    have hsplit : (cborEncodeScalar e.1 ++ vb ++ tailb) ++ r =
        cborEncodeScalar e.1 ++ (vb ++ (tailb ++ r)) := by
      simp [List.append_assoc]
    rw [hsplit]
    simp only [decodePairs]
    rw [decodeScalar_cborEncode e.1 (hm e (by simp)).1 (vb ++ (tailb ++ r))]
    simp only [Option.bind_eq_bind, Option.some_bind]
    rw [decodeScalar_encodeValue e.2 (hm e (by simp)).2 vb hvb (tailb ++ r)]
    simp only [Option.some_bind]
    rw [ih (fun p hp => hm p (by simp [hp])) tailb htailb]
    simp

theorem decodeTop_mapHeader (len : Nat) (h : len < 2 ^ 64) (rest : List Nat) :
    decodeTop (encode_length 0xA0 len ++ rest) =
      (decodePairs len rest).map (fun p => (.dictT (pyDict p.1), p.2)) := by
  have run : ∀ (hd : Nat) (tl : List Nat), hd >>> 5 = 5 →
      decodeUintArg (hd &&& 31) tl = some (len, rest) →
      decodeTop (hd :: tl) =
        (decodePairs len rest).map (fun p => (.dictT (pyDict p.1), p.2)) := by
    intro hd tl h5 harg
    simp only [decodeTop, h5, if_pos rfl, harg, Option.bind_eq_bind, Option.some_bind]
    cases decodePairs len rest with
    | none => rfl
    | some p => rfl
  by_cases h24 : len < 24
  · have hb : encode_length 0xA0 len = [160 ||| len] := by
      unfold encode_length
      rw [if_pos h24]
    rw [hb]
    exact run _ rest (or160_facts len h24).1
      (by rw [(or160_facts len h24).2]; exact decodeUintArg_inline len h24 rest)
  · by_cases h256 : len < 2 ^ 8
    · have hb : encode_length 0xA0 len = [184, len] := by
        unfold encode_length
        rw [if_neg h24, if_pos h256, show (160 ||| 24 : Nat) = 184 from by decide]
      rw [hb]
      exact run 184 (len :: rest) (by decide)
        (by rw [show ((184 : Nat) &&& 31) = 24 from by decide]; exact decodeUintArg_24 len rest)
    · by_cases h16 : len < 2 ^ 16
      · have hb : encode_length 0xA0 len = 185 :: beBytes 2 len := by
          unfold encode_length
          rw [if_neg h24, if_neg h256, if_pos h16,
            show (160 ||| 25 : Nat) = 185 from by decide]
        rw [hb, List.cons_append]
        exact run 185 (beBytes 2 len ++ rest) (by decide)
          (by rw [show ((185 : Nat) &&& 31) = 25 from by decide]
              exact decodeUintArg_25 len h16 rest)
      · by_cases h32 : len < 2 ^ 32
        · have hb : encode_length 0xA0 len = 186 :: beBytes 4 len := by
            unfold encode_length
            rw [if_neg h24, if_neg h256, if_neg h16, if_pos h32,
              show (160 ||| 26 : Nat) = 186 from by decide]
          rw [hb, List.cons_append]
          exact run 186 (beBytes 4 len ++ rest) (by decide)
            (by rw [show ((186 : Nat) &&& 31) = 26 from by decide]
                exact decodeUintArg_26 len h32 rest)
        · have hb : encode_length 0xA0 len = 187 :: beBytes 8 len := by
            unfold encode_length
            rw [if_neg h24, if_neg h256, if_neg h16, if_neg h32,
              show (160 ||| 27 : Nat) = 187 from by decide]
          rw [hb, List.cons_append]
          exact run 187 (beBytes 8 len ++ rest) (by decide)
            (by rw [show ((187 : Nat) &&& 31) = 27 from by decide]
                exact decodeUintArg_27 len h rest)

theorem parse_function_value (f : ThingsetFunction) (rest : List Nat) :
    _parse_thingset_msg_function (f.value :: rest) = .ok f := by
  cases f <;> rfl

theorem mapM_roundEntry_none (es : List (PyValue × PyValue)) :
    es.mapM (roundEntry none) = .ok es := by
  induction es with
  | nil => rfl
  | cons e es ih =>
    rw [List.mapM_cons]
    have he : roundEntry none e = .ok e := by
      unfold roundEntry
      cases e with
      | mk k v => cases v <;> rfl
    rw [he, ih]
    rfl

theorem parse_payload_of_encode (f : ThingsetFunction)
    (payload : List (PyValue × PyValue))
    (hnd : (payload.map Prod.fst).Nodup)
    (hlen : payload.length < 2 ^ 64)
    (hm : ∀ p ∈ payload, ModelScalar p.1 = true ∧ ModelRTValue p.2 = true)
    (body : List Nat) (hok : encodeEntries payload = .ok body) :
    _parse_thingset_msg_payload
      (f.value :: encode_length 0xA0 payload.length ++ body) none = .ok payload := by
  have hdrop : (f.value :: encode_length 0xA0 payload.length ++ body).drop 1 =
      encode_length 0xA0 payload.length ++ body := rfl
  have hpairs : decodePairs payload.length (body ++ []) = some (payload, []) :=
    decodePairs_encodeEntries payload hm body hok []
  rw [List.append_nil] at hpairs
  have htop : decodeTop (encode_length 0xA0 payload.length ++ body) =
      some (.dictT (pyDict payload), []) := by
    rw [decodeTop_mapHeader payload.length hlen body, hpairs]
    rfl
  have hloads : cborLoads (encode_length 0xA0 payload.length ++ body) =
      some (.dictT (pyDict payload)) := by
    unfold cborLoads
    rw [htop]
    rfl
  unfold _parse_thingset_msg_payload
  rw [hdrop, hloads, pyDict_eq_self payload hnd]
  show (payload.mapM (roundEntry none)).map pyDict = .ok payload
  rw [mapM_roundEntry_none]
  show Except.ok (pyDict payload) = Except.ok payload
  rw [pyDict_eq_self payload hnd]

theorem decode_message_eq (msg : List Nat) (prec : Option Nat)
    (fn : ThingsetFunction) (pl : List (PyValue × PyValue))
    (h1 : _parse_thingset_msg_function msg = .ok fn)
    (h2 : _parse_thingset_msg_payload msg prec = .ok pl) :
    decode_thingset_message msg prec = .ok ⟨fn, pl⟩ := by
  unfold decode_thingset_message
  rw [h1, h2]
  rfl

/-! ## Claim theorems -/

/-- C3: for every Message whose floating-point payload values are all
exactly representable in IEEE-754 single precision, decoding the
encoding gives back the original message — same function and same
payload — when no `floats_precision` is supplied.  The payload ranges
over the modelled scalar domain (dict keys pairwise distinct as in any
Python dict, integers within the 64-bit CBOR widths). -/
theorem roundtrip_f32_exact (f : ThingsetFunction)
    (payload : List (PyValue × PyValue))
    (hnd : (payload.map Prod.fst).Nodup)
    (hlen : payload.length < 2 ^ 64)
    (hm : ∀ p ∈ payload, ModelScalar p.1 = true ∧ ModelRTValue p.2 = true) :
    ∃ bs, encode_thingset_message ⟨f, payload⟩ = .ok bs ∧
      decode_thingset_message bs none = .ok ⟨f, payload⟩ := by
  obtain ⟨body, hok⟩ := encodeEntries_ok payload hm
  refine ⟨f.value :: encode_length 0xA0 payload.length ++ body, ?_, ?_⟩
  · unfold encode_thingset_message
    rw [hok]
    rfl
  · exact decode_message_eq _ none f payload
      (parse_function_value f _)
      (parse_payload_of_encode f payload hnd hlen hm body hok)

/-- Witness for C3 at the reference payload (the float values
`0x405EC00000000000` = 123.0 and `0x402E666660000000` =
float32-exact 15.199999809265137). -/
theorem roundtrip_f32_exact_witness :
    ∃ bs, encode_thingset_message ⟨.PUBLICATION_MESSAGE, testPayloadRaw⟩ = .ok bs ∧
      decode_thingset_message bs none = .ok ⟨.PUBLICATION_MESSAGE, testPayloadRaw⟩ :=
  roundtrip_f32_exact .PUBLICATION_MESSAGE testPayloadRaw
    (by decide) (by decide) (by decide)

/-- C2 (counterexample): with no `floats_precision`,
`decode_thingset_message` maps key 8 of the test vector to the widened
float32 value 15.199999809265137 (`0x402E666660000000`), not to the
Python literal 15.2 (`0x402E666666666666`): the decoded message is not
the claimed one. -/
theorem test_vector_decode_counterexample :
    decode_thingset_message testVector none =
      .ok ⟨.PUBLICATION_MESSAGE, testPayloadRaw⟩ ∧
    ¬(decode_thingset_message testVector none =
      .ok ⟨.PUBLICATION_MESSAGE, testPayloadRounded⟩) := by
  constructor
  · decide
  · decide

/-- C2 (amended): decoded with `floats_precision=3` (as the reference
test does), the test vector yields `PUBLICATION_MESSAGE` and the
payload `{1: 1539335128, 7: 123.0, 8: 15.2, 9: 82, 0x4E: 854}`, and
re-encoding that payload — or the raw un-rounded one — reproduces the
identical byte sequence. -/
theorem test_vector_decode_encode :
    decode_thingset_message testVector (some 3) =
      .ok ⟨.PUBLICATION_MESSAGE, testPayloadRounded⟩ ∧
    encode_thingset_message ⟨.PUBLICATION_MESSAGE, testPayloadRounded⟩ =
      .ok testVector ∧
    encode_thingset_message ⟨.PUBLICATION_MESSAGE, testPayloadRaw⟩ =
      .ok testVector := by
  refine ⟨?_, ?_, ?_⟩
  · decide
  · decide
  · decide

theorem or160_add : ∀ x, x < 24 → 160 ||| x = 160 + x := by
  decide

theorem beBytes_two (m : Nat) : beBytes 2 m = [m / 256, m % 256] := by
  have h1 : beBytes 2 m = m / 2 ^ (8 * 1) :: beBytes 1 (m % 2 ^ (8 * 1)) := rfl
  rw [h1, beBytes_one]
  norm_num

/-- C4 (counterexample): a 24-entry payload encodes with map-header
byte `0xB8` (major type 5, additional information 24), not the `0x98`
(major type 4, array) stated in the claim. -/
theorem map_header_counterexample :
    (encode_thingset_message ⟨.READ, payload24⟩).map (fun bs => bs.get? 1) =
      .ok (some 0xB8) ∧ (0xB8 : Nat) ≠ 0x98 := by
  constructor
  · decide
  · decide

/-- C4 (amended): `encode_thingset_message` emits, right after the
function byte, a definite-length CBOR map header for the number of
payload entries, minimal width: counts 0–23 inline in the single
header byte `0xA0+count`, counts 24–255 as `0xB8` plus one length
byte, counts 256–65535 as `0xB9` plus two big-endian length bytes
(the major-type-5 forms of additional information 24/25, not the
major-type-4 bytes `0x98`/`0x99`). -/
theorem map_header_length :
    (∀ msg bs, encode_thingset_message msg = .ok bs →
      ∃ body, encodeEntries msg.payload = .ok body ∧
        bs = msg.function.value ::
          encode_length 0xA0 msg.payload.length ++ body) ∧
    (∀ len, len < 24 → encode_length 0xA0 len = [0xA0 + len]) ∧
    (∀ len, 24 ≤ len → len < 256 → encode_length 0xA0 len = [0xB8, len]) ∧
    (∀ len, 256 ≤ len → len < 65536 →
      encode_length 0xA0 len = [0xB9, len / 256, len % 256]) := by
  refine ⟨?_, ?_, ?_, ?_⟩
  · intro msg bs henc
    unfold encode_thingset_message at henc
    cases hE : encodeEntries msg.payload with
    | error e => rw [hE] at henc; cases henc
    | ok body =>
      rw [hE] at henc
      refine ⟨body, rfl, ?_⟩
      cases henc
      rfl
  · intro len hlt
    unfold encode_length
    rw [if_pos hlt, or160_add len hlt]
  · intro len h1 h2
    unfold encode_length
    rw [if_neg (by omega), if_pos (by norm_num; omega),
      show (160 ||| 24 : Nat) = 0xB8 from by decide]
  · intro len h1 h2
    unfold encode_length
    rw [if_neg (by omega), if_neg (by norm_num; omega), if_pos (by norm_num; omega),
      show (160 ||| 25 : Nat) = 0xB9 from by decide]
    rw [beBytes_two]

/-- Witness for C4: header forms at entry counts 5, 30 and 300, and
the message-level layout for an empty payload. -/
theorem map_header_length_witness :
    encode_length 0xA0 5 = [0xA0 + 5] ∧
    encode_length 0xA0 30 = [0xB8, 30] ∧
    encode_length 0xA0 300 = [0xB9, 300 / 256, 300 % 256] ∧
    (∃ body, encodeEntries (Message.mk .READ []).payload = .ok body ∧
      [1, 0xA0] = (Message.mk .READ []).function.value ::
        encode_length 0xA0 (Message.mk .READ []).payload.length ++ body) :=
  ⟨map_header_length.2.1 5 (by decide),
   map_header_length.2.2.1 30 (by decide) (by decide),
   map_header_length.2.2.2 300 (by decide) (by decide),
   map_header_length.1 ⟨.READ, []⟩ [1, 0xA0] (by decide)⟩

/-! ### C1: forced float32 value encoding -/

theorem encodeEntries_append (xs ys : List (PyValue × PyValue)) :
    encodeEntries (xs ++ ys) =
      (encodeEntries xs).bind (fun a => (encodeEntries ys).map (fun b => a ++ b)) := by
  induction xs with
  | nil =>
    rw [List.nil_append]
    cases h : encodeEntries ys with
    | error e => rfl
    | ok b => rfl
  | cons e xs ih =>
    rw [List.cons_append, encodeEntries_cons, encodeEntries_cons, ih]
    cases encodeEntry e with
    | error err => rfl
    | ok x =>
      cases encodeEntries xs with
      | error err => rfl
      | ok a =>
        cases encodeEntries ys with
        | error err => rfl
        | ok b =>
          show Except.ok (x ++ (a ++ b)) = Except.ok (x ++ a ++ b)
          rw [List.append_assoc]

/-- C1 (counterexample): a payload float out of float32 range —
`0x47F0000000000000` is the binary64 pattern of 2^128 — makes
`encode_thingset_message` raise `OverflowError` from
`struct.pack(">Bf", ...)`: the value is not encoded as 5 bytes (nor at
all), so "regardless of the value's magnitude" fails. -/
theorem float32_forcing_counterexample :
    encode_thingset_message ⟨.READ, [(.intV 1, .floatV 0x47F0000000000000)]⟩ =
      .error (.overflowError "float too large to pack with f format") := by
  decide

/-- C1 (amended): whenever `struct.pack` accepts the value (the
binary64 narrows to a finite binary32 `b32`), the forced encoder emits
exactly the 5 bytes `0xFA` followed by the 4-byte big-endian `b32` —
never the float16 or float64 forms — and inside an encoded message the
float value occupies exactly those 5 bytes after its key; a float
outside float32 range raises `OverflowError` instead. -/
theorem float32_forcing :
    (∀ bits b32, narrow64to32 bits = some b32 →
      _encode_float_using_float32 bits = .ok (0xFA :: beBytes 4 b32) ∧
      (0xFA :: beBytes 4 b32).length = 5) ∧
    (∀ bits, narrow64to32 bits = none →
      _encode_float_using_float32 bits =
        .error (.overflowError "float too large to pack with f format")) ∧
    (∀ f pre post k bits b32 bs, narrow64to32 bits = some b32 →
      encode_thingset_message ⟨f, pre ++ (k, .floatV bits) :: post⟩ = .ok bs →
      ∃ pb postb, encodeEntries pre = .ok pb ∧ encodeEntries post = .ok postb ∧
        bs = f.value ::
          encode_length 0xA0 (pre ++ (k, .floatV bits) :: post).length ++
          (pb ++ (cborEncodeScalar k ++ (0xFA :: beBytes 4 b32)) ++ postb)) := by
  have hfl : ∀ bits b32, narrow64to32 bits = some b32 →
      _encode_float_using_float32 bits = .ok (0xFA :: beBytes 4 b32) := by
    intro bits b32 hn
    unfold _encode_float_using_float32
    rw [hn]
  refine ⟨?_, ?_, ?_⟩
  · intro bits b32 hn
    exact ⟨hfl bits b32 hn, by simp [beBytes_length]⟩
  · intro bits hn
    unfold _encode_float_using_float32
    rw [hn]
  · intro f pre post k bits b32 bs hn henc
    unfold encode_thingset_message at henc
    cases hE : encodeEntries (pre ++ (k, .floatV bits) :: post) with
    | error e => rw [hE] at henc; cases henc
    | ok body =>
      rw [hE] at henc
      have hbs : bs = f.value ::
          encode_length 0xA0 (pre ++ (k, .floatV bits) :: post).length ++ body := by
        cases henc
        rfl
      rw [encodeEntries_append] at hE
      cases hpre : encodeEntries pre with
      | error e => rw [hpre] at hE; cases hE
      | ok pb =>
        rw [hpre] at hE
        have hentry : encodeEntry (k, .floatV bits) =
            .ok (cborEncodeScalar k ++ (0xFA :: beBytes 4 b32)) :=
          encodeEntry_eq (k, .floatV bits) _ (hfl bits b32 hn)
        rw [encodeEntries_cons, hentry] at hE
        cases hpost : encodeEntries post with
        | error e =>
          rw [hpost] at hE
          cases hE
        | ok postb =>
          rw [hpost] at hE
          refine ⟨pb, postb, rfl, rfl, ?_⟩
          have hbody : body = pb ++ (cborEncodeScalar k ++
              (0xFA :: beBytes 4 b32) ++ postb) := by
            cases hE
            rfl
          rw [hbs, hbody]
          simp [List.append_assoc]

/-- Witness for C1 at the float 15.2f (pattern `0x402E666660000000`,
narrowing to `0x41733333`) inside a one-entry message. -/
theorem float32_forcing_witness :
    (_encode_float_using_float32 0x402E666660000000 =
      .ok (0xFA :: beBytes 4 0x41733333) ∧
      (0xFA :: beBytes 4 0x41733333).length = 5) ∧
    ∃ pb postb, encodeEntries [] = .ok pb ∧ encodeEntries [] = .ok postb ∧
      [0x1F, 0xA1, 0x08, 0xFA, 0x41, 0x73, 0x33, 0x33] =
        ThingsetFunction.PUBLICATION_MESSAGE.value ::
        encode_length 0xA0 ([] ++ ((.intV 8 : PyValue), (.floatV 0x402E666660000000 : PyValue)) :: []).length ++
        (pb ++ (cborEncodeScalar (.intV 8) ++ (0xFA :: beBytes 4 0x41733333)) ++ postb) :=
  ⟨float32_forcing.1 0x402E666660000000 0x41733333 (by decide),
   float32_forcing.2.2 .PUBLICATION_MESSAGE [] [] (.intV 8) 0x402E666660000000
     0x41733333 _ (by decide) (by decide)⟩

/-! ### C5: function byte classification -/

/-- C5: classifying the first byte returns the matching
`ThingsetFunction` member for the eight enumeration codes
(0x01–0x07 and 0x1F) and raises `ParsingError` naming the byte for
every other value; in particular byte 0x99 (153) raises
`ParsingError`. -/
theorem classify_function_byte :
    (∀ b rest, b ∈ ([1, 2, 3, 4, 5, 6, 7, 0x1F] : List Nat) →
      ∃ f, _parse_thingset_msg_function (b :: rest) = .ok f ∧
        f.value = b) ∧
    (∀ b rest, b ∉ ([1, 2, 3, 4, 5, 6, 7, 0x1F] : List Nat) →
      _parse_thingset_msg_function (b :: rest) = .error (.parsingError
        ("Thingset function " ++ toString b ++ " is not implemented"))) ∧
    _parse_thingset_msg_function [0x99] = .error (.parsingError
      ("Thingset function " ++ toString 0x99 ++ " is not implemented")) := by
  refine ⟨?_, ?_, by decide⟩
  · intro b rest hb
    fin_cases hb
    · exact ⟨.READ, rfl, rfl⟩
    · exact ⟨.WRITE, rfl, rfl⟩
    · exact ⟨.LIST, rfl, rfl⟩
    · exact ⟨.GET_DATA_OBJECT_NAME, rfl, rfl⟩
    · exact ⟨.PUBLICATION_REQUEST, rfl, rfl⟩
    · exact ⟨.AUTHENTICATION, rfl, rfl⟩
    · exact ⟨.PRELIMINARY, rfl, rfl⟩
    · exact ⟨.PUBLICATION_MESSAGE, rfl, rfl⟩
  · intro b rest hb
    simp only [List.mem_cons, List.not_mem_nil, or_false, not_or] at hb
    obtain ⟨h1, h2, h3, h4, h5, h6, h7, h8⟩ := hb
    have hfind : ThingsetFunction.all.find? (fun f => f.value == b) = none := by
      rw [List.find?_eq_none]
      intro f hf
      fin_cases hf <;>
        simp only [ThingsetFunction.value, beq_eq_false_iff_ne, ne_eq,
          Bool.not_eq_true, beq_iff_eq] <;> omega
    have hstep : _parse_thingset_msg_function (b :: rest) =
        (match ThingsetFunction.all.find? (fun f => f.value == b) with
         | some f => Except.ok f
         | none => Except.error (.parsingError
             ("Thingset function " ++ toString b ++ " is not implemented"))) := rfl
    rw [hstep, hfind]

/-- Witness for C5: byte 2 classifies as WRITE, byte 0x99 is rejected
with the error message naming 153. -/
theorem classify_function_byte_witness :
    (∃ f, _parse_thingset_msg_function (2 :: []) = .ok f ∧
      f.value = 2) ∧
    _parse_thingset_msg_function (0x99 :: [0xA0]) = .error (.parsingError
      ("Thingset function " ++ toString 0x99 ++ " is not implemented")) :=
  ⟨classify_function_byte.1 2 [] (by decide),
   classify_function_byte.2.1 0x99 [0xA0] (by decide)⟩

/-! ### C6: payload must decode to a dict -/

/-- C6: when the bytes after the function byte decode to a CBOR value
that is not a map, payload parsing raises `ParsingError` reporting the
type encountered; an empty map decodes to an empty payload, not an
error. -/
theorem payload_requires_dict :
    (∀ msg prec v, cborLoads (msg.drop 1) = some v → v.isDict = false →
      _parse_thingset_msg_payload msg prec = .error (.parsingError
        ("ThingSet payload should be a dict, got " ++ pyTypeName v ++ " instead"))) ∧
    (∀ msg prec, cborLoads (msg.drop 1) = some (.dictT []) →
      _parse_thingset_msg_payload msg prec = .ok []) := by
  constructor
  · intro msg prec v hload hnd
    unfold _parse_thingset_msg_payload
    rw [hload]
    cases v with
    | dictT es => cases hnd
    | scalar sv => rfl
    | listT items => rfl
  · intro msg prec hload
    unfold _parse_thingset_msg_payload
    rw [hload]
    rfl

/-- Witness for C6: `[0x1F, 0x05]` carries the CBOR integer 5 after
the function byte and is rejected naming `int`; `[0x1F, 0xA0]` carries
the empty map and parses to the empty payload. -/
theorem payload_requires_dict_witness :
    _parse_thingset_msg_payload [0x1F, 0x05] none = .error (.parsingError
      ("ThingSet payload should be a dict, got " ++
        pyTypeName (.scalar (.intV 5)) ++ " instead")) ∧
    _parse_thingset_msg_payload [0x1F, 0xA0] (some 3) = .ok [] :=
  ⟨payload_requires_dict.1 [0x1F, 0x05] none (.scalar (.intV 5))
      (by decide) (by decide),
   payload_requires_dict.2 [0x1F, 0xA0] (some 3) (by decide)⟩

/-! ### C7: float rounding under floats_precision -/

theorem mapM_roundEntry_some (p : Nat) (es : List (PyValue × PyValue))
    (hsucc : es.all (fun kv => match kv.2 with
      | PyValue.floatV b => (pyRound b p).isSome
      | _ => true) = true) :
    es.mapM (roundEntry (some p)) = .ok (es.map (fun kv =>
      match kv.2 with
      | PyValue.floatV b => (kv.1, PyValue.floatV ((pyRound b p).getD b))
      | _ => kv)) := by
  induction es with
  | nil => rfl
  | cons e es ih =>
    rw [List.all_cons, Bool.and_eq_true] at hsucc
    rw [List.mapM_cons]
    have he : roundEntry (some p) e = .ok
        (match e.2 with
         | PyValue.floatV b => (e.1, PyValue.floatV ((pyRound b p).getD b))
         | _ => e) := by
      obtain ⟨k, v⟩ := e
      cases v with
      | floatV b =>
        have hr := hsucc.1
        simp only at hr
        cases hrr : pyRound b p with
        | none => rw [hrr] at hr; cases hr
        | some r =>
          have hstep : roundEntry (some p) (k, PyValue.floatV b) =
              (match pyRound b p with
               | some r => Except.ok ((k : PyValue), PyValue.floatV r)
               | none => Except.error
                   (.overflowError "rounded value too large to represent")) := rfl
          rw [hstep, hrr]
          show Except.ok ((k : PyValue), PyValue.floatV r) =
            Except.ok ((k : PyValue), PyValue.floatV ((pyRound b p).getD b))
          rw [hrr]
          rfl
      | intV n => rfl
      | boolV bb => rfl
      | strV s => rfl
      | noneV => rfl
    rw [he, ih hsucc.2]
    rfl

/-- C7: with `floats_precision = p` supplied, payload parsing maps
every entry of the decoded dict keeping the key, rounding a float
value with Python `round(·, p)` and passing every non-float value
through unchanged; concretely, the float32 pattern `0x41733333`
(15.199999809265137 as a Python float) parsed with precision 3 yields
the binary64 pattern of 15.2 (`0x402E666666666666`, the value
`ratToF64bits` computes as the double nearest the decimal 152/10),
different from the unrounded widened pattern. -/
theorem floats_precision_rounding :
    (∀ msg p es, cborLoads (msg.drop 1) = some (.dictT es) →
      es.all (fun kv => match kv.2 with
        | PyValue.floatV b => (pyRound b p).isSome
        | _ => true) = true →
      _parse_thingset_msg_payload msg (some p) = .ok (pyDict (es.map (fun kv =>
        match kv.2 with
        | PyValue.floatV b => (kv.1, PyValue.floatV ((pyRound b p).getD b))
        | _ => kv)))) ∧
    _parse_thingset_msg_payload [0x1F, 0xA1, 0x08, 0xFA, 0x41, 0x73, 0x33, 0x33]
      (some 3) = .ok [(.intV 8, .floatV 0x402E666666666666)] ∧
    pyRound (widen32to64 0x41733333) 3 = some 0x402E666666666666 ∧
    ratToF64bits 0 152 10 = some 0x402E666666666666 ∧
    widen32to64 0x41733333 ≠ 0x402E666666666666 := by
  refine ⟨?_, by decide, by decide, by decide, by decide⟩
  intro msg p es hload hsucc
  unfold _parse_thingset_msg_payload
  rw [hload]
  show (es.mapM (roundEntry (some p))).map pyDict = _
  rw [mapM_roundEntry_some p es hsucc]
  rfl

/-- Witness for C7 at the one-entry dict `{8: 15.2f}` with
precision 3. -/
theorem floats_precision_rounding_witness :
    _parse_thingset_msg_payload [0x1F, 0xA1, 0x08, 0xFA, 0x41, 0x73, 0x33, 0x33]
      (some 3) = .ok (pyDict
        ([((PyValue.intV 8 : PyValue), (PyValue.floatV 0x402E666660000000 : PyValue))].map
          (fun kv => match kv.2 with
            | PyValue.floatV b => (kv.1, PyValue.floatV ((pyRound b 3).getD b))
            | _ => kv))) :=
  floats_precision_rounding.1 [0x1F, 0xA1, 0x08, 0xFA, 0x41, 0x73, 0x33, 0x33] 3
    [(.intV 8, .floatV 0x402E666660000000)] (by decide) (by decide)

/-! ### C8: domain translation on decode -/

theorem translate_fst_sublist (raw : List (PyValue × PyValue))
    (mapping : List (Int × String)) :
    ((mapping.filterMap
      (fun p => (raw.lookup (PyValue.intV p.1)).map (fun v => (p.2, v)))).map
        Prod.fst).Sublist (mapping.map Prod.snd) := by
  induction mapping with
  | nil => simp
  | cons q mapping ih =>
    simp only [List.filterMap_cons, List.map_cons]
    cases hl : raw.lookup (PyValue.intV q.1) with
    | none => exact ih.cons q.2
    | some v => exact ih.cons₂ q.2

theorem translateToDomain_nodup (raw : List (PyValue × PyValue))
    (mapping : List (Int × String)) (hnd : (mapping.map Prod.snd).Nodup) :
    translateToDomain raw mapping = mapping.filterMap
      (fun p => (raw.lookup (PyValue.intV p.1)).map (fun v => (p.2, v))) := by
  unfold translateToDomain
  exact pyDict_eq_self _ ((translate_fst_sublist raw mapping).nodup hnd)

/-- C8: domain translation on decode never fails —
`decode_thingset_message_with_domain` is exactly
`decode_thingset_message` followed by the total translation — and for
a `DomainMapping` (distinct domain strings) the translated payload
holds exactly the pairs `(mapping[k], rawPayload[k])` for the keys `k`
present in both; raw keys missing from the mapping and mapping keys
missing from the raw payload are silently dropped. -/
theorem domain_decode_translation :
    (∀ msg mapping prec,
      decode_thingset_message_with_domain msg mapping prec =
        (decode_thingset_message msg prec).map
          (fun m => ⟨m.function, translateToDomain m.payload mapping⟩)) ∧
    (∀ raw mapping, (mapping.map Prod.snd).Nodup →
      ∀ dk v, (dk, v) ∈ translateToDomain raw mapping ↔
        ∃ rk, (rk, dk) ∈ mapping ∧ raw.lookup (PyValue.intV rk) = some v) := by
  constructor
  · intro msg mapping prec
    unfold decode_thingset_message_with_domain decode_thingset_message
    cases _parse_thingset_msg_function msg with
    | error e => rfl
    | ok f =>
      cases _parse_thingset_msg_payload msg prec with
      | error e => rfl
      | ok raw => rfl
  · intro raw mapping hnd dk v
    rw [translateToDomain_nodup raw mapping hnd, List.mem_filterMap]
    constructor
    · rintro ⟨p, hp, hf⟩
      cases ho : raw.lookup (PyValue.intV p.1) with
      | none => rw [ho] at hf; cases hf
      | some w =>
        rw [ho] at hf
        injection hf with hpair
        obtain ⟨h1, h2⟩ := Prod.mk.injEq .. ▸ hpair
        refine ⟨p.1, by rwa [← h1, show (p.1, p.2) = p from rfl], ?_⟩
        rw [h2] at ho
        exact ho
    · rintro ⟨rk, hrk, hlook⟩
      exact ⟨(rk, dk), hrk, by rw [hlook]; rfl⟩

/-- Witness for C8 at the test payload: the mapping lacks key 8 and
has an unused key 0x3C; the result holds exactly timestamp, SOC and
the unused key is ignored. -/
theorem domain_decode_translation_witness :
    decode_thingset_message_with_domain testVector
      [(1, "timestamp"), (9, "SOC"), (0x3C, "extraField")] (some 3) =
      (decode_thingset_message testVector (some 3)).map
        (fun m => ⟨m.function, translateToDomain m.payload
          [(1, "timestamp"), (9, "SOC"), (0x3C, "extraField")]⟩) ∧
    (((("SOC" : String), (PyValue.intV 82 : PyValue)) ∈ translateToDomain testPayloadRounded
        [(1, "timestamp"), (9, "SOC"), (0x3C, "extraField")]) ↔
      ∃ rk, (rk, "SOC") ∈ ([(1, "timestamp"), (9, "SOC"), (0x3C, "extraField")] : List (Int × String)) ∧
        testPayloadRounded.lookup (PyValue.intV rk) = some (PyValue.intV 82)) :=
  ⟨domain_decode_translation.1 testVector
      [(1, "timestamp"), (9, "SOC"), (0x3C, "extraField")] (some 3),
   domain_decode_translation.2 testPayloadRounded
      [(1, "timestamp"), (9, "SOC"), (0x3C, "extraField")] (by decide)
      "SOC" (.intV 82)⟩

/-! ### C9: domain translation on encode -/

theorem mapM_domain_ok (flipped : List (String × Int))
    (pl : List (String × PyValue))
    (h : pl.all (fun kv => (flipped.lookup kv.1).isSome) = true) :
    pl.mapM (fun (kv : String × PyValue) =>
      (match flipped.lookup kv.1 with
      | some rawKey => Except.ok (PyValue.intV rawKey, kv.2)
      | none => Except.error (PyError.keyError kv.1) :
        Except PyError (PyValue × PyValue))) =
    .ok (pl.filterMap (fun kv => (flipped.lookup kv.1).map
      (fun ik => (PyValue.intV ik, kv.2)))) := by
  induction pl with
  | nil => rfl
  | cons e pl ih =>
    rw [List.all_cons, Bool.and_eq_true] at h
    rw [List.mapM_cons, List.filterMap_cons]
    cases hl : flipped.lookup e.1 with
    | none => rw [hl] at h; cases h.1
    | some ik =>
      rw [ih h.2]
      rfl

theorem mapM_domain_err (flipped : List (String × Int))
    (pl : List (String × PyValue))
    (h : pl.all (fun kv => (flipped.lookup kv.1).isSome) = false) :
    ∃ dk, pl.mapM (fun (kv : String × PyValue) =>
      (match flipped.lookup kv.1 with
      | some rawKey => Except.ok (PyValue.intV rawKey, kv.2)
      | none => Except.error (PyError.keyError kv.1) :
        Except PyError (PyValue × PyValue))) =
        .error (PyError.keyError dk) ∧
      dk ∈ pl.map Prod.fst ∧ flipped.lookup dk = none := by
  induction pl with
  | nil => cases h
  | cons e pl ih =>
    rw [List.all_cons] at h
    rw [List.mapM_cons]
    cases hl : flipped.lookup e.1 with
    | none =>
      refine ⟨e.1, ?_, by simp, hl⟩
      rfl
    | some ik =>
      have htail : pl.all (fun kv => (flipped.lookup kv.1).isSome) = false := by
        rw [hl] at h
        simpa using h
      obtain ⟨dk, hmap, hmem, hnone⟩ := ih htail
      refine ⟨dk, ?_, by simp [hmem], hnone⟩
      rw [hmap]
      rfl

/-- C9: in the encode direction, when every domain key of the payload
has an entry in the inverted (string-to-integer) mapping, each entry
is translated to its integer key and the message is encoded; when
some domain key has no entry, `encode_thingset_message_with_domain`
raises `KeyError` naming an unmapped domain key of the payload
instead of silently dropping it. -/
theorem domain_encode_unmapped_key :
    (∀ msg mapping,
      msg.payload.all (fun kv =>
        ((pyDict (mapping.map (fun p => (p.2, p.1)))).lookup kv.1).isSome) = true →
      encode_thingset_message_with_domain msg mapping =
        encode_thingset_message ⟨msg.function, pyDict (msg.payload.filterMap
          (fun kv => ((pyDict (mapping.map (fun p => (p.2, p.1)))).lookup kv.1).map
            (fun ik => (PyValue.intV ik, kv.2))))⟩) ∧
    (∀ msg mapping,
      msg.payload.all (fun kv =>
        ((pyDict (mapping.map (fun p => (p.2, p.1)))).lookup kv.1).isSome) = false →
      ∃ dk, encode_thingset_message_with_domain msg mapping =
          .error (.keyError dk) ∧ dk ∈ msg.payload.map Prod.fst ∧
        (pyDict (mapping.map (fun p => (p.2, p.1)))).lookup dk = none) := by
  constructor
  · intro msg mapping h
    unfold encode_thingset_message_with_domain
    rw [mapM_domain_ok (pyDict (mapping.map (fun p => (p.2, p.1)))) msg.payload h]
    rfl
  · intro msg mapping h
    obtain ⟨dk, hmap, hmem, hnone⟩ :=
      mapM_domain_err (pyDict (mapping.map (fun p => (p.2, p.1)))) msg.payload h
    refine ⟨dk, ?_, hmem, hnone⟩
    unfold encode_thingset_message_with_domain
    rw [hmap]
    rfl

/-- Witness for C9: a complete mapping encodes the translated message;
a mapping missing `SOC` raises `KeyError` on that domain key. -/
theorem domain_encode_unmapped_key_witness :
    (encode_thingset_message_with_domain
      ⟨.PUBLICATION_MESSAGE, [("timestamp", .intV 1539335128), ("SOC", .intV 82)]⟩
      [(1, "timestamp"), (9, "SOC")] =
      encode_thingset_message ⟨.PUBLICATION_MESSAGE,
        pyDict (([("timestamp", (PyValue.intV 1539335128 : PyValue)),
            ("SOC", .intV 82)]).filterMap
          (fun kv => ((pyDict ((([((1 : Int), "timestamp"), (9, "SOC")] :
              List (Int × String))).map
            (fun p => (p.2, p.1)))).lookup kv.1).map
              (fun ik => (PyValue.intV ik, kv.2))))⟩) ∧
    ∃ dk, encode_thingset_message_with_domain
        ⟨.PUBLICATION_MESSAGE, [("timestamp", .intV 1539335128), ("SOC", .intV 82)]⟩
        [(1, "timestamp")] = .error (.keyError dk) ∧
      dk ∈ ([("timestamp", (PyValue.intV 1539335128 : PyValue)),
        ("SOC", .intV 82)]).map Prod.fst ∧
      (pyDict ((([((1 : Int), "timestamp")] : List (Int × String))).map
        (fun p => (p.2, p.1)))).lookup dk = none :=
  ⟨domain_encode_unmapped_key.1
      ⟨.PUBLICATION_MESSAGE, [("timestamp", .intV 1539335128), ("SOC", .intV 82)]⟩
      [(1, "timestamp"), (9, "SOC")] (by decide),
   domain_encode_unmapped_key.2
      ⟨.PUBLICATION_MESSAGE, [("timestamp", .intV 1539335128), ("SOC", .intV 82)]⟩
      [(1, "timestamp")] (by decide)⟩

/-! ### C10: empty input raises IndexError, non-empty never does -/

theorem roundEntries_err_shape (prec : Option Nat) (es : List (PyValue × PyValue))
    (e : PyError) (h : es.mapM (roundEntry prec) = .error e) :
    ∃ s, e = .overflowError s := by
  induction es with
  | nil => cases h
  | cons kv es ih =>
    rw [List.mapM_cons] at h
    cases hk : roundEntry prec kv with
    | error e1 =>
      rw [hk] at h
      cases h
      obtain ⟨k, v⟩ := kv
      cases prec with
      | none =>
        have hne : roundEntry none (k, v) = .ok (k, v) := by cases v <;> rfl
        rw [hne] at hk
        cases hk
      | some p =>
        cases v with
        | floatV b =>
          have hstep : roundEntry (some p) (k, PyValue.floatV b) =
              (match pyRound b p with
               | some r => Except.ok ((k : PyValue), PyValue.floatV r)
               | none => Except.error
                   (.overflowError "rounded value too large to represent")) := rfl
          rw [hstep] at hk
          cases hr : pyRound b p with
          | none =>
            rw [hr] at hk
            cases hk
            exact ⟨_, rfl⟩
          | some r => rw [hr] at hk; cases hk
        | intV n => cases hk
        | boolV bb => cases hk
        | strV s => cases hk
        | noneV => cases hk
    | ok kv2 =>
      rw [hk] at h
      cases ht : es.mapM (roundEntry prec) with
      | error e2 =>
        rw [ht] at h
        cases h
        exact ih ht
      | ok rest => rw [ht] at h; cases h

theorem parse_payload_err_shape (msg : List Nat) (prec : Option Nat) (e : PyError)
    (h : _parse_thingset_msg_payload msg prec = .error e) :
    e = .cborDecodeError ∨ (∃ s, e = .parsingError s) ∨
      (∃ s, e = .overflowError s) := by
  unfold _parse_thingset_msg_payload at h
  cases hl : cborLoads (msg.drop 1) with
  | none =>
    rw [hl] at h
    cases h
    exact Or.inl rfl
  | some v =>
    rw [hl] at h
    cases v with
    | dictT es =>
      cases hm : es.mapM (roundEntry prec) with
      | error e2 =>
        have hh : (es.mapM (roundEntry prec)).map pyDict = .error e := h
        rw [hm] at hh
        cases hh
        exact Or.inr (Or.inr (roundEntries_err_shape prec es _ hm))
      | ok res =>
        have hh : (es.mapM (roundEntry prec)).map pyDict = .error e := h
        rw [hm] at hh
        cases hh
    | scalar sv =>
      cases h
      exact Or.inr (Or.inl ⟨_, rfl⟩)
    | listT items =>
      cases h
      exact Or.inr (Or.inl ⟨_, rfl⟩)

theorem parse_function_err_shape (b : Nat) (rest : List Nat) (e : PyError)
    (h : _parse_thingset_msg_function (b :: rest) = .error e) :
    ∃ s, e = .parsingError s := by
  have hstep : _parse_thingset_msg_function (b :: rest) =
      (match ThingsetFunction.all.find? (fun f => f.value == b) with
       | some f => Except.ok f
       | none => Except.error (.parsingError
           ("Thingset function " ++ toString b ++ " is not implemented"))) := rfl
  rw [hstep] at h
  cases hf : ThingsetFunction.all.find? (fun f => f.value == b) with
  | some f => rw [hf] at h; cases h
  | none =>
    rw [hf] at h
    cases h
    exact ⟨_, rfl⟩

/-- C10: applying `decode_thingset_message` (or the domain variant) to
the empty byte string fails with `IndexError` from reading byte 0 —
not with `ParsingError` — while for every non-empty input the
function-byte access succeeds and any failure is one of the documented
`ParsingError` / CBOR-layer / rounding errors, never `IndexError`. -/
theorem empty_message_index_error :
    (∀ prec, decode_thingset_message [] prec = .error .indexError) ∧
    (∀ mapping prec, decode_thingset_message_with_domain [] mapping prec =
      .error .indexError) ∧
    (∀ s, (PyError.indexError ≠ .parsingError s)) ∧
    (∀ b rest prec e, decode_thingset_message (b :: rest) prec = .error e →
      e = .cborDecodeError ∨ (∃ s, e = .parsingError s) ∨
        (∃ s, e = .overflowError s)) := by
  refine ⟨fun prec => rfl, fun mapping prec => rfl,
    fun s h => PyError.noConfusion h, ?_⟩
  intro b rest prec e h
  unfold decode_thingset_message at h
  cases hf : _parse_thingset_msg_function (b :: rest) with
  | error e1 =>
    rw [hf] at h
    have he1 : e1 = e := by
      have h2 : (Except.error e1 : Except PyError Message) = .error e := h
      injection h2
    subst he1
    obtain ⟨s, hs⟩ := parse_function_err_shape b rest _ hf
    exact Or.inr (Or.inl ⟨s, hs⟩)
  | ok f =>
    rw [hf] at h
    cases hp : _parse_thingset_msg_payload (b :: rest) prec with
    | error e2 =>
      rw [hp] at h
      have he2 : e2 = e := by
        have h2 : (Except.error e2 : Except PyError Message) = .error e := h
        injection h2
      subst he2
      exact parse_payload_err_shape (b :: rest) prec _ hp
    | ok pl => rw [hp] at h; cases h

/-- Witness for C10: byte 0 is not a ThingSet function, and the
resulting failure is a `ParsingError`, not an `IndexError`. -/
theorem empty_message_index_error_witness :
    (PyError.parsingError "Thingset function 0 is not implemented" =
        PyError.cborDecodeError) ∨
      (∃ s, PyError.parsingError "Thingset function 0 is not implemented" =
        .parsingError s) ∨
      (∃ s, PyError.parsingError "Thingset function 0 is not implemented" =
        .overflowError s) :=
  empty_message_index_error.2.2.2 0 [] none
    (.parsingError "Thingset function 0 is not implemented") (by decide)
